import Mathlib

/-!
Shallow embedding of the alphavantage MCP server core
(`src/business.ts`, `src/mongo.ts`, `src/mcp.ts`):
API-key round-robin rotation, rate pacing, fetch-normalize-upsert for
stock prices and news, and the cache-fill-on-miss query tools.
-/

namespace AlphaVantage

/-- One stored daily stock record (`StockData` in business.ts).
Prices are parsed by JS `parseFloat` (decimal, `none` models NaN),
volume by `parseInt(_, 10)` (`none` models NaN). -/
structure StockData where
  symbol : String
  date : String
  «open» : Option ℚ
  high : Option ℚ
  low : Option ℚ
  close : Option ℚ
  volume : Option ℤ
deriving DecidableEq, Repr

/-- The raw string-valued OHLCV entry of the upstream time-series payload
(the object under each date key: fields "1. open" … "5. volume"). -/
structure DailyRaw where
  o1 : String
  h2 : String
  l3 : String
  c4 : String
  v5 : String
deriving DecidableEq, Repr

/-- One topic-relevance pair of a news article (`Topic` in business.ts). -/
structure Topic where
  topic : String
  relevance_score : String
deriving DecidableEq, Repr

/-- Per-ticker sentiment entry (`TickerSentiment` in business.ts). -/
structure TickerSentiment where
  ticker : String
  relevance_score : String
  ticker_sentiment_score : String
  ticker_sentiment_label : String
deriving DecidableEq, Repr

/-- One stored news article (`NewsItem` in business.ts).
`overall_sentiment_score` is parsed by JS `parseFloat` (`none` models NaN). -/
structure NewsItem where
  title : String
  url : String
  time_published : String
  authors : List String
  summary : String
  banner_image : Option String
  source : String
  category_within_source : String
  source_domain : String
  topics : List Topic
  overall_sentiment_score : Option ℚ
  overall_sentiment_label : String
  ticker_sentiment : List TickerSentiment
deriving DecidableEq, Repr

/-- One raw article object of the upstream `feed` array; `none` models an
absent (JS-falsy `undefined`/`null`) field that pullNews defaults. -/
structure RawNewsItem where
  title : String
  url : String
  time_published : String
  authors : Option (List String)
  summary : String
  banner_image : Option String
  source : String
  category_within_source : String
  source_domain : String
  topics : Option (List Topic)
  overall_sentiment_score : String
  overall_sentiment_label : String
  ticker_sentiment : Option (List TickerSentiment)
deriving DecidableEq, Repr

/- ===================== string and number helpers ===================== -/

/-- Numeric value of an ASCII digit character. -/
def digitVal (c : Char) : ℕ := c.toNat - 48

/-- Splits off the maximal leading run of ASCII digits. -/
def takeDigits : List Char → List Char × List Char
  | [] => ([], [])
  | c :: cs =>
    if c.isDigit then
      let p := takeDigits cs
      (c :: p.1, p.2)
    else ([], c :: cs)

/-- Base-10 value of a digit run. -/
def digitsToNat (ds : List Char) : ℕ := ds.foldl (fun a c => 10 * a + digitVal c) 0

/-- JS `parseFloat` on the plain decimal strings this system feeds it:
skip leading whitespace, optional sign, integer digits, optional point and
fraction digits, ignore any trailing junk; `none` models NaN (no digits at
all). Exponent forms never occur in the consumed payloads. -/
def jsParseFloat (s : String) : Option ℚ :=
  let l := s.toList.dropWhile Char.isWhitespace
  let sl : ℚ × List Char :=
    match l with
    | '-' :: r => (-1, r)
    | '+' :: r => (1, r)
    | _ => (1, l)
  let ip := takeDigits sl.2
  let fp : List Char × List Char :=
    match ip.2 with
    | '.' :: r => takeDigits r
    | _ => ([], ip.2)
  if ip.1.isEmpty && fp.1.isEmpty then none
  else some (sl.1 * ((digitsToNat ip.1 : ℚ) + (digitsToNat fp.1 : ℚ) / (10 : ℚ) ^ fp.1.length))

/-- JS `parseInt(s, 10)`: skip leading whitespace, optional sign, maximal
digit run, ignore trailing junk; `none` models NaN. -/
def jsParseInt (s : String) : Option ℤ :=
  let l := s.toList.dropWhile Char.isWhitespace
  let sl : ℤ × List Char :=
    match l with
    | '-' :: r => (-1, r)
    | '+' :: r => (1, r)
    | _ => (1, l)
  let ip := takeDigits sl.2
  if ip.1.isEmpty then none else some (sl.1 * (digitsToNat ip.1 : ℤ))

/-- Strict lexicographic order on character lists — how MongoDB compares the
ASCII date/timestamp strings this system stores (byte order coincides with
`Char` order on ASCII). -/
def lexLt : List Char → List Char → Bool
  | [], [] => false
  | [], _ :: _ => true
  | _ :: _, [] => false
  | a :: as, b :: bs => if a < b then true else if b < a then false else lexLt as bs

/-- `s <= t` in MongoDB's string order ($gte/$lte on strings). -/
def strLe (s t : String) : Bool := !(lexLt t.toList s.toList)

/-- Does the pattern occur at the head of the text? -/
def leadsWith : List Char → List Char → Bool
  | [], _ => true
  | _ :: _, [] => false
  | a :: as, b :: bs => a = b && leadsWith as bs

/-- Does the pattern occur contiguously anywhere in the text? -/
def hasSeg (p : List Char) : List Char → Bool
  | [] => p.isEmpty
  | c :: cs => leadsWith p (c :: cs) || hasSeg p cs

/-- JS `String.prototype.includes` (case-sensitive substring test), used for
the `.keylist`/`ENOENT` error classification in mcp.ts. -/
def strIncludes (hay pat : String) : Bool := hasSeg pat.toList hay.toList

/-- MongoDB `$regex` with option `"i"` on the literal (metacharacter-free)
keywords this tool passes: case-insensitive substring match. -/
def containsCI (hay pat : String) : Bool :=
  hasSeg (pat.toList.map Char.toLower) (hay.toList.map Char.toLower)

/-- JS truthiness of an optional string field (absent or `""` is falsy). -/
def jsTruthy : Option String → Bool
  | none => false
  | some s => !s.isEmpty

/- ===================== key management (business.ts) ===================== -/

/-- The module-level mutable state of business.ts: `apiKeys` and
`currentKeyIndex`. -/
structure KeyState where
  apiKeys : List String
  currentKeyIndex : ℕ
deriving DecidableEq, Repr

/-- The fresh process state: `apiKeys = []`, `currentKeyIndex = 0`. -/
def initKeyState : KeyState := ⟨[], 0⟩

/-- How `getKey` parses the `.keylist` file content: split on newlines, trim
each line, keep the non-empty ones. -/
def loadKeys (content : String) : List String :=
  ((content.splitOn "\n").map String.trim).filter (fun line => 0 < line.length)

/-- `getKey` of business.ts. `keylist` is the content of the `.keylist` file
(`none`: the file is absent, so reading it throws ENOENT / "No such file",
rewrapped as ".keylist file not found"). The source is consulted only when
the in-memory pool is empty; the returned state carries the advanced
round-robin cursor. -/
def getKey (st : KeyState) (keylist : Option String) : Except String (String × KeyState) :=
  if st.apiKeys.length = 0 then
    match keylist with
    | none => .error ".keylist file not found"
    | some content =>
      let keys := loadKeys content
      if keys.length = 0 then .error ".keylist file is empty"
      else .ok (keys.getD st.currentKeyIndex "", ⟨keys, (st.currentKeyIndex + 1) % keys.length⟩)
  else
    .ok (st.apiKeys.getD st.currentKeyIndex "",
      ⟨st.apiKeys, (st.currentKeyIndex + 1) % st.apiKeys.length⟩)

/-- Runs `n` successive `getKey` calls (pool already loaded, source unused),
collecting the returned keys. -/
def getKeyRun : ℕ → KeyState → List String × KeyState
  | 0, st => ([], st)
  | n + 1, st =>
    match getKey st none with
    | .ok p =>
      let rest := getKeyRun n p.2
      (p.1 :: rest.1, rest.2)
    | .error _ => ([], st)

/- ===================== fetch-and-store (business.ts) ===================== -/

/-- Observable side effects of a pull: one `upsert` per stored record (in
processing order) and one `wait` per `waitAfterApiCall` invocation (the
fixed 5-second rate-limit suspension, which has no other effect). -/
inductive Ev where
  | upsert (key : String)
  | wait
deriving DecidableEq, Repr

/-- The staged outcome of one remote call as pullStock/pullNews observe it:
transport failure, non-OK HTTP status, JSON parse failure, or a parsed JSON
body with its optional `Error` / `Error Message` fields and payload. -/
inductive ApiResponse (β : Type) where
  | netError (msg : String)
  | badStatus (status : ℕ) (statusText : String)
  | badJson (msg : String)
  | body (errF : Option String) (errMsgF : Option String) (payload : β)
deriving DecidableEq, Repr

/-- The message of `Alpha Vantage API error: ${data.Error || data["Error Message"]}`. -/
def avErrMsg (errF errMsgF : Option String) : String :=
  if jsTruthy errF then errF.getD "" else errMsgF.getD ""

/-- Builds the `StockData` document pullStock stores for one (date, OHLCV)
entry: decimal prices via `parseFloat`, integer volume via `parseInt(_,10)`. -/
def mkStockDoc (symbol date : String) (v : DailyRaw) : StockData :=
  ⟨symbol, date, jsParseFloat v.o1, jsParseFloat v.h2, jsParseFloat v.l3,
    jsParseFloat v.c4, jsParseInt v.v5⟩

/-- `upsertDocument(db, col, {date}, doc)` = Mongo `replaceOne` with
`upsert: true`: replace the first record matching the date wholesale, else
insert the document. -/
def upsertByDate : List StockData → String → StockData → List StockData
  | [], _, doc => [doc]
  | r :: rs, d, doc => if r.date = d then doc :: rs else r :: upsertByDate rs d doc

/-- The upsert loop of pullStock over the time-series entries. -/
def applyPull (part : List StockData) (symbol : String)
    (ts : List (String × DailyRaw)) : List StockData :=
  ts.foldl (fun p e => upsertByDate p e.1 (mkStockDoc symbol e.1 e.2)) part

/-- `pullStock(symbol)` of business.ts over the symbol's cache partition.
`keyRes` is the outcome of the inner `getKey()` call; `resp` the remote
call's staged outcome (payload: the `"Time Series (Daily)"` field, `none`
when absent). Returns the thrown error or the count, the partition after
the call, and the event trace. -/
def pullStock (symbol : String) (part : List StockData) (keyRes : Except String String)
    (resp : ApiResponse (Option (List (String × DailyRaw)))) :
    Except String ℕ × List StockData × List Ev :=
  match keyRes with
  | .error e => (.error e, part, [])
  | .ok _ =>
    match resp with
    | .netError m => (.error ("Failed to fetch stock data: " ++ m), part, [])
    | .badStatus status statusText =>
      (.error ("API request failed with status " ++ toString status ++ ": " ++ statusText),
        part, [])
    | .badJson m => (.error ("Failed to parse API response as JSON: " ++ m), part, [])
    | .body errF errMsgF ts =>
      if jsTruthy errF || jsTruthy errMsgF then
        (.error ("Alpha Vantage API error: " ++ avErrMsg errF errMsgF), part, [])
      else
        match ts with
        | none => (.error "Invalid API response: missing 'Time Series (Daily)' field", part, [])
        | some entries =>
          (.ok entries.length, applyPull part symbol entries,
            entries.map (fun e => Ev.upsert e.1) ++ [Ev.wait])

/-- `item.banner_image || null`: JS-falsy (absent or empty) becomes null. -/
def jsOrNull : Option String → Option String
  | none => none
  | some s => if s.isEmpty then none else some s

/-- Builds the `NewsItem` document pullNews stores for one feed entry,
defaulting the falsy optional fields. -/
def mkNewsDoc (item : RawNewsItem) : NewsItem :=
  ⟨item.title, item.url, item.time_published, item.authors.getD [], item.summary,
    jsOrNull item.banner_image, item.source, item.category_within_source,
    item.source_domain, item.topics.getD [],
    jsParseFloat item.overall_sentiment_score, item.overall_sentiment_label,
    item.ticker_sentiment.getD []⟩

/-- `upsertDocument(db, "news", {time_published}, doc)`. -/
def upsertByTime : List NewsItem → String → NewsItem → List NewsItem
  | [], _, doc => [doc]
  | r :: rs, t, doc => if r.time_published = t then doc :: rs else r :: upsertByTime rs t doc

/-- The upsert loop of pullNews over the feed entries. -/
def applyNewsPull (store : List NewsItem) (feed : List RawNewsItem) : List NewsItem :=
  feed.foldl (fun s item => upsertByTime s item.time_published (mkNewsDoc item)) store

/-- `pullNews(time_from, time_to)` of business.ts over the shared news
partition (payload: the `feed` field, `none` when absent or not an array). -/
def pullNews (store : List NewsItem) (keyRes : Except String String)
    (resp : ApiResponse (Option (List RawNewsItem))) :
    Except String ℕ × List NewsItem × List Ev :=
  match keyRes with
  | .error e => (.error e, store, [])
  | .ok _ =>
    match resp with
    | .netError m => (.error ("Failed to fetch news data: " ++ m), store, [])
    | .badStatus status statusText =>
      (.error ("API request failed with status " ++ toString status ++ ": " ++ statusText),
        store, [])
    | .badJson m => (.error ("Failed to parse API response as JSON: " ++ m), store, [])
    | .body errF errMsgF feed =>
      if jsTruthy errF || jsTruthy errMsgF then
        (.error ("Alpha Vantage API error: " ++ avErrMsg errF errMsgF), store, [])
      else
        match feed with
        | none => (.error "Invalid API response: missing or invalid 'feed' field", store, [])
        | some items =>
          (.ok items.length, applyNewsPull store items,
            items.map (fun item => Ev.upsert item.time_published) ++ [Ev.wait])

/- ===================== mcp.ts: date helpers ===================== -/

/-- The `/^\d{8}$/` test of the date-conversion helpers. -/
def validDate8 (s : String) : Bool := s.toList.length = 8 && s.toList.all Char.isDigit

/-- `formatStockDate` of mcp.ts: YYYYMMDD → YYYY-MM-DD, throwing on any
input that is not exactly 8 digits. -/
def formatStockDate (s : String) : Except String String :=
  if validDate8 s then
    .ok (String.mk (s.toList.take 4 ++
      '-' :: ((s.toList.drop 4).take 2 ++ '-' :: (s.toList.drop 6).take 2)))
  else .error ("Invalid date format: " ++ s ++ ". Expected YYYYMMDD")

/-- `formatNewsTime` of mcp.ts: YYYYMMDD → the query bound `YYYYMMDDT2359`
(end) or `YYYYMMDDT0000` (start), throwing on malformed input. -/
def formatNewsTime (s : String) (isEnd : Bool) : Except String String :=
  if validDate8 s then .ok (if isEnd then s ++ "T2359" else s ++ "T0000")
  else .error ("Invalid date format: " ++ s ++ ". Expected YYYYMMDD")

/-- Deletes the dashes a formatted stock date contains (the inverse
direction of the round-trip property). -/
def removeDashes (t : String) : String := String.mk (t.toList.filter (fun c => c ≠ '-'))

/- ===================== mcp.ts: get_stock_prices ===================== -/

/-- The `data` field of a tool result: JSON `null`, a single document
(date query hit), or a document array (latest-100 query). -/
inductive DataField where
  | null
  | doc (d : StockData)
  | docs (ds : List StockData)
deriving DecidableEq, Repr

/-- The structured result object a tool handler returns (never thrown). -/
structure ToolResult where
  message : String
  data : DataField
  error : Option String
deriving DecidableEq, Repr

/-- Insert one record into a list kept sorted by date descending. -/
def insertDesc (r : StockData) : List StockData → List StockData
  | [] => [r]
  | x :: xs => if strLe x.date r.date then r :: x :: xs else x :: insertDesc r xs

/-- Sort records by date descending (`sort: {date: -1}`). -/
def sortByDateDesc : List StockData → List StockData
  | [] => []
  | r :: rs => insertDesc r (sortByDateDesc rs)

/-- The no-date read of processGetStockPrices:
`findDocuments(…, {}, {sort: {date: -1}, limit: 100})`. -/
def readLatest (part : List StockData) : List StockData := (sortByDateDesc part).take 100

/-- The remediation message for a missing `.keylist` file. -/
def keylistMsg (symbol : String) : String :=
  "No stock data found for " ++ symbol ++
  ". Auto-pull failed: .keylist file not found. Please create a .keylist file with your Alpha Vantage API key(s), or manually pull the data using: bun src/run-stocks.ts --pull-stock " ++ symbol

/-- Is the caught fetch error a `.keylist` configuration error?
(`errorMessage.includes('.keylist') || errorMessage.includes('ENOENT')`). -/
def isKeylistError (e : String) : Bool := strIncludes e ".keylist" || strIncludes e "ENOENT"

/-- `processGetStockPrices(symbol, date)` of mcp.ts, date given. Outcome:
the thrown formatStockDate error (propagated before any cache read), or the
tool result together with the partition after the call, the number of cache
reads and the number of pullStock invocations. -/
def processByDate (symbol date : String) (part : List StockData)
    (keyRes : Except String String)
    (resp : ApiResponse (Option (List (String × DailyRaw)))) :
    Except String (ToolResult × List StockData × ℕ × ℕ) :=
  match formatStockDate date with
  | .error e => .error e
  | .ok dateF =>
    match part.filter (fun r => r.date = dateF) with
    | [] =>
      match pullStock symbol part keyRes resp with
      | (.ok _, part2, _) =>
        match part2.filter (fun r => r.date = dateF) with
        | [] =>
          .ok (⟨"No stock data found for " ++ symbol ++ " on " ++ dateF ++
                " (even after pulling from API)", .null, none⟩, part2, 2, 1)
        | d :: _ =>
          .ok (⟨"Stock data for " ++ symbol ++ " on " ++ dateF ++
                " (freshly pulled from API)", .doc d, none⟩, part2, 2, 1)
      | (.error e, part2, _) =>
        if isKeylistError e then
          .ok (⟨keylistMsg symbol, .null, some "Missing .keylist file"⟩, part2, 1, 1)
        else
          .ok (⟨"No stock data found for " ++ symbol ++ ". Auto-pull failed: " ++ e,
                .null, some e⟩, part2, 1, 1)
    | d :: _ =>
      .ok (⟨"Stock data for " ++ symbol ++ " on " ++ dateF, .doc d, none⟩, part, 1, 0)

/-- `processGetStockPrices(symbol)` of mcp.ts, no date: latest-100 read
with cache-fill on miss. Returns the tool result, the partition after the
call, the number of cache reads and the number of pullStock invocations. -/
def processLatest (symbol : String) (part : List StockData)
    (keyRes : Except String String)
    (resp : ApiResponse (Option (List (String × DailyRaw)))) :
    ToolResult × List StockData × ℕ × ℕ :=
  match readLatest part with
  | [] =>
    match pullStock symbol part keyRes resp with
    | (.ok _, part2, _) =>
      match readLatest part2 with
      | [] =>
        (⟨"No stock data found for " ++ symbol ++ " (even after pulling from API)",
          .docs [], none⟩, part2, 2, 1)
      | d :: ds =>
        (⟨"Found " ++ toString (d :: ds).length ++ " stock price records for " ++
          symbol ++ " (freshly pulled from API)", .docs (d :: ds), none⟩, part2, 2, 1)
    | (.error e, part2, _) =>
      if isKeylistError e then
        (⟨keylistMsg symbol, .docs [], some "Missing .keylist file"⟩, part2, 1, 1)
      else
        (⟨"No stock data found for " ++ symbol ++ ". Auto-pull failed: " ++ e,
          .docs [], some e⟩, part2, 1, 1)
  | d :: ds =>
    (⟨"Found " ++ toString (d :: ds).length ++ " stock price records for " ++ symbol,
      .docs (d :: ds), none⟩, part, 1, 0)

/- ===================== mcp.ts: get_news ===================== -/

/-- The structured result of the get_news tool. -/
structure NewsResult where
  message : String
  count : ℕ
  data : List NewsItem
deriving DecidableEq, Repr

/-- The time_published range test of the get_news query
(`$gte: fromTime, $lte: toTime`, MongoDB string order). -/
def newsInRange (fromTime toTime : String) (it : NewsItem) : Bool :=
  strLe fromTime it.time_published && strLe it.time_published toTime

/-- The full get_news filter: range plus, when a keyword is (truthily)
given, an OR of case-insensitive matches on title and summary. -/
def newsFilter (fromTime toTime : String) (keyword : Option String) (it : NewsItem) : Bool :=
  newsInRange fromTime toTime it &&
  (if jsTruthy keyword then
    (containsCI it.title (keyword.getD "") || containsCI it.summary (keyword.getD ""))
  else true)

/-- `processGetNews(from, to, keyword)` of mcp.ts over the news store.
Outcome: a thrown formatNewsTime error, or the result together with the
number of fetcher (pullStock/pullNews) invocations — structurally zero:
get_news has no cache-fill path. -/
def processGetNews (store : List NewsItem) (frm toD : String) (keyword : Option String) :
    Except String (NewsResult × ℕ) :=
  match formatNewsTime frm false with
  | .error e => .error e
  | .ok fromTime =>
    match formatNewsTime toD true with
    | .error e => .error e
    | .ok toTime =>
      let docs := store.filter (newsFilter fromTime toTime keyword)
      let keywordInfo :=
        if jsTruthy keyword then " matching keyword \"" ++ keyword.getD "" ++ "\"" else ""
      if docs.length = 0 then
        .ok (⟨"No news articles found between " ++ frm ++ " and " ++ toD ++ keywordInfo,
              0, []⟩, 0)
      else
        .ok (⟨"Found " ++ toString docs.length ++ " news articles between " ++ frm ++
              " and " ++ toD ++ keywordInfo, docs.length, docs⟩, 0)

/- ===================== lemmas: key rotation ===================== -/

lemma getKey_loaded (ks : List String) (i : ℕ) (src : Option String) (h : ks ≠ []) :
    getKey ⟨ks, i⟩ src = .ok (ks.getD i "", ⟨ks, (i + 1) % ks.length⟩) := by
  simp [getKey, List.length_eq_zero, h]

lemma getKeyRun_spec (n : ℕ) (ks : List String) (i : ℕ) (hi : i < ks.length) :
    getKeyRun n ⟨ks, i⟩ =
      ((List.range n).map (fun k => ks.getD ((i + k) % ks.length) ""),
        ⟨ks, (i + n) % ks.length⟩) := by
  induction n generalizing i with
  | zero => simp [getKeyRun, Nat.mod_eq_of_lt hi]
  | succ n ih =>
    have hne : ks ≠ [] := List.ne_nil_of_length_pos (lt_of_le_of_lt (Nat.zero_le i) hi)
    have hlt : (i + 1) % ks.length < ks.length :=
      Nat.mod_lt _ (List.length_pos.mpr hne)
    have h1 : ks.getD i "" ::
        (List.range n).map (fun k => ks.getD (((i + 1) % ks.length + k) % ks.length) "") =
        (List.range (n + 1)).map (fun k => ks.getD ((i + k) % ks.length) "") := by
      rw [List.range_succ_eq_map, List.map_cons, List.map_map]
      congr 1
      · rw [Nat.add_zero, Nat.mod_eq_of_lt hi]
      · apply List.map_congr_left
        intro k _
        simp only [Function.comp_apply, Nat.succ_eq_add_one]
        rw [Nat.mod_add_mod, (by omega : i + 1 + k = i + (k + 1))]
    have h2 : ((i + 1) % ks.length + n) % ks.length = (i + (n + 1)) % ks.length := by
      rw [Nat.mod_add_mod, (by omega : i + 1 + n = i + (n + 1))]
    simp only [getKeyRun, getKey_loaded ks i none hne, ih ((i + 1) % ks.length) hlt]
    rw [h1, h2]

lemma range_map_getD_eq_rotate (ks : List String) (i : ℕ) (hi : i < ks.length) :
    (List.range ks.length).map (fun k => ks.getD ((i + k) % ks.length) "") = ks.rotate i := by
  apply List.ext_getElem
  · simp
  · intro m h1 h2
    have hm : m < ks.length := by simpa using h1
    have hmod : (i + m) % ks.length < ks.length :=
      Nat.mod_lt _ (lt_of_le_of_lt (Nat.zero_le i) hi)
    rw [List.getElem_map, List.getElem_range, List.getD_eq_getElem _ _ hmod,
      List.getElem_rotate]
    congr 1
    rw [Nat.add_comm]

/-- **C3.** Round-robin key rotation: from any valid cursor position `i`, a
run of `pool.length` consecutive `getKey` calls returns exactly the pool
rotated to start at the cursor (hence each pool entry exactly once, in the
pool's cyclic order — a permutation of the pool), call `N + 1` returns the
same credential as call 1, and the pool `["K1","K2","K3"]` yields
`K1,K2,K3,K1,K2` over five consecutive calls from a fresh cursor. -/
theorem getKey_roundRobin (ks : List String) (i : ℕ) (hi : i < ks.length) :
    (getKeyRun ks.length ⟨ks, i⟩).1 = ks.rotate i ∧
    (ks.rotate i).Perm ks ∧
    (getKeyRun (ks.length + 1) ⟨ks, i⟩).1.getD ks.length "" =
      (getKeyRun (ks.length + 1) ⟨ks, i⟩).1.getD 0 "" ∧
    (getKeyRun 5 ⟨["K1", "K2", "K3"], 0⟩).1 = ["K1", "K2", "K3", "K1", "K2"] := by
  have hpos : 0 < ks.length := lt_of_le_of_lt (Nat.zero_le i) hi
  refine ⟨?_, List.rotate_perm ks i, ?_, by decide⟩
  · rw [getKeyRun_spec _ _ _ hi, range_map_getD_eq_rotate ks i hi]
  · rw [getKeyRun_spec _ _ _ hi]
    have hN : ks.length < ks.length + 1 := Nat.lt_succ_self _
    have h0 : 0 < ks.length + 1 := Nat.succ_pos _
    rw [List.getD_eq_getElem _ _ (by simp), List.getD_eq_getElem _ _ (by simp),
      List.getElem_map, List.getElem_map, List.getElem_range, List.getElem_range]
    simp [Nat.add_mod_right, Nat.mod_eq_of_lt hi]

/-- Witness for C3 at the concrete pool `["K1","K2","K3"]`, cursor 0. -/
theorem getKey_roundRobin_witness :
    (getKeyRun (["K1", "K2", "K3"] : List String).length ⟨["K1", "K2", "K3"], 0⟩).1 =
      (["K1", "K2", "K3"] : List String).rotate 0 ∧
    ((["K1", "K2", "K3"] : List String).rotate 0).Perm ["K1", "K2", "K3"] ∧
    (getKeyRun ((["K1", "K2", "K3"] : List String).length + 1)
        ⟨["K1", "K2", "K3"], 0⟩).1.getD (["K1", "K2", "K3"] : List String).length "" =
      (getKeyRun ((["K1", "K2", "K3"] : List String).length + 1)
        ⟨["K1", "K2", "K3"], 0⟩).1.getD 0 "" ∧
    (getKeyRun 5 ⟨["K1", "K2", "K3"], 0⟩).1 = ["K1", "K2", "K3", "K1", "K2"] :=
  getKey_roundRobin ["K1", "K2", "K3"] 0 (by decide)

/-- **C9.** Lazy one-time load of the credential pool: with an empty
in-memory pool, `getKey` loads exactly the trimmed non-empty lines of the
source (an entry is in the pool iff it is the trim of some source line and
non-empty), errors when the source file is absent, errors when it contains
zero non-empty entries, and once the pool is non-empty the source is never
consulted again (the call's outcome is independent of it). -/
theorem getKey_lazyLoad (st : KeyState) (content : String) (hempty : st.apiKeys = []) :
    (∀ k, k ∈ loadKeys content ↔
      k ≠ "" ∧ ∃ line ∈ content.splitOn "\n", line.trim = k) ∧
    (loadKeys content ≠ [] →
      getKey st (some content) =
        .ok ((loadKeys content).getD st.currentKeyIndex "",
          ⟨loadKeys content, (st.currentKeyIndex + 1) % (loadKeys content).length⟩)) ∧
    getKey st none = .error ".keylist file not found" ∧
    (loadKeys content = [] → getKey st (some content) = .error ".keylist file is empty") ∧
    (∀ st' : KeyState, st'.apiKeys ≠ [] →
      ∀ src src' : Option String, getKey st' src = getKey st' src') := by
  refine ⟨?_, ?_, ?_, ?_, ?_⟩
  · intro k
    simp only [loadKeys, List.mem_filter, List.mem_map]
    constructor
    · rintro ⟨⟨line, hline, rfl⟩, hlen⟩
      refine ⟨?_, line, hline, rfl⟩
      intro h
      rw [h] at hlen
      simp at hlen
    · rintro ⟨hne, line, hline, rfl⟩
      refine ⟨⟨line, hline, rfl⟩, ?_⟩
      simp only [decide_eq_true_eq]
      by_contra h
      apply hne
      have h0 : line.trim.length = 0 := by omega
      have hd : line.trim.data = [] := by
        apply List.length_eq_zero.mp
        rw [String.length_data, h0]
      exact String.ext hd
  · intro hne
    simp [getKey, hempty, List.length_eq_zero, hne]
  · simp [getKey, hempty]
  · intro hnil
    simp [getKey, hempty, hnil]
  · intro st' hne src src'
    simp [getKey, List.length_eq_zero, hne]

/-- Witness for C9 at a fresh state and the two-line source `"K1\n\n K2 \n"`. -/
theorem getKey_lazyLoad_witness :
    (∀ k, k ∈ loadKeys "K1\n\n K2 \n" ↔
      k ≠ "" ∧ ∃ line ∈ ("K1\n\n K2 \n" : String).splitOn "\n", line.trim = k) ∧
    (loadKeys "K1\n\n K2 \n" ≠ [] →
      getKey initKeyState (some "K1\n\n K2 \n") =
        .ok ((loadKeys "K1\n\n K2 \n").getD initKeyState.currentKeyIndex "",
          ⟨loadKeys "K1\n\n K2 \n",
            (initKeyState.currentKeyIndex + 1) % (loadKeys "K1\n\n K2 \n").length⟩)) ∧
    getKey initKeyState none = .error ".keylist file not found" ∧
    (loadKeys "K1\n\n K2 \n" = [] →
      getKey initKeyState (some "K1\n\n K2 \n") = .error ".keylist file is empty") ∧
    (∀ st' : KeyState, st'.apiKeys ≠ [] →
      ∀ src src' : Option String, getKey st' src = getKey st' src') :=
  getKey_lazyLoad initKeyState "K1\n\n K2 \n" rfl

/- ===================== lemmas: date formatting ===================== -/

lemma filter_ne_dash_of_digits (l : List Char) (hdig : ∀ c ∈ l, c.isDigit = true) :
    l.filter (fun c => c ≠ '-') = l := by
  apply List.filter_eq_self.mpr
  intro c hc
  rw [decide_eq_true_eq]
  intro hEq
  have h := hdig c hc
  rw [hEq] at h
  exact absurd h (by decide)

lemma format_roundtrip_chars (l : List Char) (hlen : l.length = 8)
    (hdig : ∀ c ∈ l, c.isDigit = true) :
    (l.take 4 ++ '-' :: ((l.drop 4).take 2 ++ '-' :: (l.drop 6).take 2)).filter
      (fun c => c ≠ '-') = l := by
  have hsub1 : ∀ c ∈ l.take 4, c.isDigit = true := fun c hc => hdig c (List.mem_of_mem_take hc)
  have hsub2 : ∀ c ∈ (l.drop 4).take 2, c.isDigit = true := fun c hc =>
    hdig c (List.mem_of_mem_drop (List.mem_of_mem_take hc))
  have hsub3 : ∀ c ∈ (l.drop 6).take 2, c.isDigit = true := fun c hc =>
    hdig c (List.mem_of_mem_drop (List.mem_of_mem_take hc))
  rw [List.filter_append, List.filter_cons_of_neg (by decide), List.filter_append,
    List.filter_cons_of_neg (by decide)]
  rw [filter_ne_dash_of_digits _ hsub1, filter_ne_dash_of_digits _ hsub2,
    filter_ne_dash_of_digits _ hsub3]
  have h6 : (l.drop 6).take 2 = l.drop 6 :=
    List.take_of_length_le (by rw [List.length_drop, hlen])
  have hdd : (l.drop 4).drop 2 = l.drop 6 := by rw [List.drop_drop]
  rw [h6, ← hdd, List.take_append_drop, List.take_append_drop]

lemma validDate8_elim {s : String} (h : validDate8 s = true) :
    s.toList.length = 8 ∧ ∀ c ∈ s.toList, c.isDigit = true := by
  simpa only [validDate8, Bool.and_eq_true, decide_eq_true_eq, List.all_eq_true] using h

/-- **C8.** `formatStockDate` is a bijection between valid 8-digit date
strings and its image: formatting then deleting the dashes recovers the
input, distinct valid inputs format to distinct outputs, and every
malformed input is rejected with an error — `processGetStockPrices` with a
malformed date propagates that error before any cache read or fetch. -/
theorem formatStockDate_bijection :
    (∀ s : String, validDate8 s = true →
      ∃ t, formatStockDate s = .ok t ∧ removeDashes t = s) ∧
    (∀ s₁ s₂ : String, validDate8 s₁ = true → validDate8 s₂ = true →
      formatStockDate s₁ = formatStockDate s₂ → s₁ = s₂) ∧
    (∀ s : String, validDate8 s = false →
      formatStockDate s = .error ("Invalid date format: " ++ s ++ ". Expected YYYYMMDD") ∧
      ∀ symbol part keyRes resp,
        processByDate symbol s part keyRes resp =
          .error ("Invalid date format: " ++ s ++ ". Expected YYYYMMDD")) := by
  have main : ∀ s : String, validDate8 s = true →
      ∃ t, formatStockDate s = .ok t ∧ removeDashes t = s := by
    intro s hv
    obtain ⟨hlen, hdig⟩ := validDate8_elim hv
    refine ⟨_, by rw [formatStockDate, if_pos hv], ?_⟩
    show String.mk ((s.toList.take 4 ++
      '-' :: ((s.toList.drop 4).take 2 ++ '-' :: (s.toList.drop 6).take 2)).filter
        (fun c => c ≠ '-')) = s
    rw [format_roundtrip_chars s.toList hlen hdig]
    rfl
  refine ⟨main, ?_, ?_⟩
  · intro s₁ s₂ h₁ h₂ heq
    obtain ⟨t₁, hf₁, hr₁⟩ := main s₁ h₁
    obtain ⟨t₂, hf₂, hr₂⟩ := main s₂ h₂
    rw [hf₁, hf₂] at heq
    have ht : t₁ = t₂ := by injection heq
    rw [← hr₁, ← hr₂, ht]
  · intro s hv
    have hfmt : formatStockDate s =
        .error ("Invalid date format: " ++ s ++ ". Expected YYYYMMDD") := by
      rw [formatStockDate, if_neg (by rw [hv]; exact Bool.false_ne_true)]
    exact ⟨hfmt, fun symbol part keyRes resp => by rw [processByDate, hfmt]⟩

/-- Witness for C8 at `"20251223"`, `"20240101"` and the malformed `"2025"`. -/
theorem formatStockDate_bijection_witness :
    (∃ t, formatStockDate "20251223" = .ok t ∧ removeDashes t = "20251223") ∧
    (formatStockDate "20251223" = formatStockDate "20240101" → "20251223" = "20240101") ∧
    formatStockDate "2025" =
      .error ("Invalid date format: " ++ "2025" ++ ". Expected YYYYMMDD") ∧
    processByDate "AAPL" "2025" [] (.ok "k") (.netError "x") =
      .error ("Invalid date format: " ++ "2025" ++ ". Expected YYYYMMDD") :=
  ⟨formatStockDate_bijection.1 "20251223" (by decide),
    formatStockDate_bijection.2.1 "20251223" "20240101" (by decide) (by decide),
    (formatStockDate_bijection.2.2 "2025" (by decide)).1,
    (formatStockDate_bijection.2.2 "2025" (by decide)).2 "AAPL" [] (.ok "k") (.netError "x")⟩

/- ===================== lemmas: rate-limit pacing ===================== -/

/-- Number of `waitAfterApiCall` invocations recorded in a trace. -/
def waitCount (tr : List Ev) : ℕ := tr.countP (fun e => e = Ev.wait)

/-- **C2 counterexample.** A completed remote call whose body carries an
Alpha Vantage error field (an ApiError): pullStock throws before reaching
`waitAfterApiCall`, so the rate-limit delay is invoked zero times, not
exactly once as the claim states. -/
theorem pullStock_apiError_no_wait :
    (pullStock "AAPL" [] (.ok "k")
      (.body (some "Invalid API call") none (some []))).1 =
        .error "Alpha Vantage API error: Invalid API call" ∧
    waitCount (pullStock "AAPL" [] (.ok "k")
      (.body (some "Invalid API call") none (some []))).2.2 = 0 := by
  constructor
  · rfl
  · rfl

/-- **C2 amended.** In pullStock and pullNews the rate-limit delay is
invoked exactly once on the success path, after all entries have been
upserted (the trace is the upserts followed by one `wait`), and is not
invoked at all on any failure path — including ApiError and ParseError
outcomes where the remote call completed. -/
theorem pull_wait_discipline :
    (∀ symbol part k errF errMsgF entries,
      jsTruthy errF = false → jsTruthy errMsgF = false →
      pullStock symbol part (.ok k) (.body errF errMsgF (some entries)) =
        (.ok entries.length, applyPull part symbol entries,
          entries.map (fun e => Ev.upsert e.1) ++ [Ev.wait])) ∧
    (∀ symbol part keyRes resp e,
      (pullStock symbol part keyRes resp).1 = .error e →
      waitCount (pullStock symbol part keyRes resp).2.2 = 0) ∧
    (∀ store k errF errMsgF items,
      jsTruthy errF = false → jsTruthy errMsgF = false →
      pullNews store (.ok k) (.body errF errMsgF (some items)) =
        (.ok items.length, applyNewsPull store items,
          items.map (fun item => Ev.upsert item.time_published) ++ [Ev.wait])) ∧
    (∀ store keyRes resp e,
      (pullNews store keyRes resp).1 = .error e →
      waitCount (pullNews store keyRes resp).2.2 = 0) := by
  refine ⟨?_, ?_, ?_, ?_⟩
  · intro symbol part k errF errMsgF entries h1 h2
    simp [pullStock, h1, h2]
  · intro symbol part keyRes resp e herr
    cases keyRes with
    | error e' => simp [pullStock, waitCount]
    | ok k =>
      cases resp with
      | netError m => simp [pullStock, waitCount]
      | badStatus a b => simp [pullStock, waitCount]
      | badJson m => simp [pullStock, waitCount]
      | body errF errMsgF ts =>
        by_cases hT : (jsTruthy errF || jsTruthy errMsgF) = true
        · simp [pullStock, hT, waitCount]
        · cases ts with
          | none => simp [pullStock, hT, waitCount]
          | some entries =>
            exfalso
            simp [pullStock, hT] at herr
  · intro store k errF errMsgF items h1 h2
    simp [pullNews, h1, h2]
  · intro store keyRes resp e herr
    cases keyRes with
    | error e' => simp [pullNews, waitCount]
    | ok k =>
      cases resp with
      | netError m => simp [pullNews, waitCount]
      | badStatus a b => simp [pullNews, waitCount]
      | badJson m => simp [pullNews, waitCount]
      | body errF errMsgF feed =>
        by_cases hT : (jsTruthy errF || jsTruthy errMsgF) = true
        · simp [pullNews, hT, waitCount]
        · cases feed with
          | none => simp [pullNews, hT, waitCount]
          | some items =>
            exfalso
            simp [pullNews, hT] at herr

/-- Witness for the amended C2 at concrete success and failure inputs. -/
theorem pull_wait_discipline_witness :
    pullStock "AAPL" [] (.ok "k")
      (.body none none (some [("2025-12-23", ⟨"1", "2", "3", "4", "5"⟩)])) =
      (.ok ([("2025-12-23", (⟨"1", "2", "3", "4", "5"⟩ : DailyRaw))].length : ℕ),
        applyPull [] "AAPL" [("2025-12-23", ⟨"1", "2", "3", "4", "5"⟩)],
        [("2025-12-23", (⟨"1", "2", "3", "4", "5"⟩ : DailyRaw))].map
          (fun e => Ev.upsert e.1) ++ [Ev.wait]) ∧
    waitCount (pullStock "AAPL" [] (.ok "k") (.netError "boom")).2.2 = 0 :=
  ⟨pull_wait_discipline.1 "AAPL" [] "k" none none
      [("2025-12-23", ⟨"1", "2", "3", "4", "5"⟩)] rfl rfl,
    pull_wait_discipline.2.1 "AAPL" [] (.ok "k") (.netError "boom")
      "Failed to fetch stock data: boom" rfl⟩

/-- **C6.** With the time-series container present, pullStock succeeds,
upserts one parsed `StockData` per (date, OHLCV) entry into the symbol's
partition keyed by date, and returns the number of entries processed —
zero exactly when the series is present but empty (still a success). The
single-entry AAPL payload of the spec produces exactly one stored record
`{symbol:"AAPL", date:"2025-12-23", open:270.97, high:272.45, low:269.56,
close:272.36, volume:29360026}` and returns count 1. -/
theorem pullStock_builds_records :
    (∀ symbol part k errF errMsgF entries,
      jsTruthy errF = false → jsTruthy errMsgF = false →
      (pullStock symbol part (.ok k) (.body errF errMsgF (some entries))).1 =
        .ok entries.length ∧
      (pullStock symbol part (.ok k) (.body errF errMsgF (some entries))).2.1 =
        applyPull part symbol entries ∧
      (entries.length = 0 ↔ entries = [])) ∧
    pullStock "AAPL" [] (.ok "k")
      (.body none none (some [("2025-12-23",
        ⟨"270.97", "272.45", "269.56", "272.36", "29360026"⟩)])) =
      (.ok 1,
        [⟨"AAPL", "2025-12-23", some (27097 / 100 : ℚ), some (27245 / 100 : ℚ),
          some (26956 / 100 : ℚ), some (27236 / 100 : ℚ), some (29360026 : ℤ)⟩],
        [Ev.upsert "2025-12-23", Ev.wait]) := by
  constructor
  · intro symbol part k errF errMsgF entries h1 h2
    refine ⟨?_, ?_, List.length_eq_zero⟩ <;> simp [pullStock, h1, h2]
  · simp [pullStock, applyPull, upsertByDate, mkStockDoc, jsParseFloat, jsParseInt,
      takeDigits, digitsToNat, digitVal, jsTruthy]
    norm_num

/-- Witness for C6's general part at the concrete AAPL payload. -/
theorem pullStock_builds_records_witness :
    (pullStock "AAPL" [] (.ok "k")
      (.body none none (some [("2025-12-23",
        (⟨"270.97", "272.45", "269.56", "272.36", "29360026"⟩ : DailyRaw))]))).1 =
      .ok ([("2025-12-23",
        (⟨"270.97", "272.45", "269.56", "272.36", "29360026"⟩ : DailyRaw))].length : ℕ) ∧
    (pullStock "AAPL" [] (.ok "k")
      (.body none none (some [("2025-12-23",
        (⟨"270.97", "272.45", "269.56", "272.36", "29360026"⟩ : DailyRaw))]))).2.1 =
      applyPull [] "AAPL" [("2025-12-23",
        (⟨"270.97", "272.45", "269.56", "272.36", "29360026"⟩ : DailyRaw))] ∧
    (([("2025-12-23",
      (⟨"270.97", "272.45", "269.56", "272.36", "29360026"⟩ : DailyRaw))].length : ℕ) = 0 ↔
      [("2025-12-23",
        (⟨"270.97", "272.45", "269.56", "272.36", "29360026"⟩ : DailyRaw))] = []) :=
  pullStock_builds_records.1 "AAPL" [] "k" none none
    [("2025-12-23", ⟨"270.97", "272.45", "269.56", "272.36", "29360026"⟩)] rfl rfl

/- ===================== lemmas: upsert idempotence ===================== -/

lemma applyPull_cons (p : List StockData) (symbol : String) (e : String × DailyRaw)
    (ts : List (String × DailyRaw)) :
    applyPull p symbol (e :: ts) =
      applyPull (upsertByDate p e.1 (mkStockDoc symbol e.1 e.2)) symbol ts := rfl

lemma map_date_upsert (p : List StockData) (d : String) (doc : StockData)
    (hdoc : doc.date = d) :
    (upsertByDate p d doc).map StockData.date =
      if d ∈ p.map StockData.date then p.map StockData.date
      else p.map StockData.date ++ [d] := by
  induction p with
  | nil => simp [upsertByDate, hdoc]
  | cons r rs ih =>
    by_cases hr : r.date = d
    · simp [upsertByDate, hr, hdoc]
    · simp only [upsertByDate, if_neg hr, List.map_cons, ih]
      have hiff : (d ∈ r.date :: rs.map StockData.date) ↔ d ∈ rs.map StockData.date := by
        constructor
        · intro h
          rcases List.mem_cons.mp h with h1 | h2
          · exact absurd h1.symm hr
          · exact h2
        · exact fun h => List.mem_cons_of_mem _ h
      by_cases hm : d ∈ rs.map StockData.date
      · simp [hm, hiff]
      · simp [hm, hiff]

lemma nodup_date_upsert (p : List StockData) (d : String) (doc : StockData)
    (hdoc : doc.date = d) (hp : (p.map StockData.date).Nodup) :
    ((upsertByDate p d doc).map StockData.date).Nodup := by
  rw [map_date_upsert p d doc hdoc]
  by_cases hm : d ∈ p.map StockData.date
  · simpa [hm] using hp
  · simp [hm, List.nodup_append, hp]

lemma find?_upsert_self (p : List StockData) (d : String) (doc : StockData)
    (hdoc : doc.date = d) :
    (upsertByDate p d doc).find? (fun r => r.date = d) = some doc := by
  induction p with
  | nil => simp [upsertByDate, List.find?_cons_of_pos, hdoc]
  | cons r rs ih =>
    by_cases hr : r.date = d
    · simp [upsertByDate, hr, List.find?_cons_of_pos, hdoc]
    · rw [upsertByDate, if_neg hr, List.find?_cons_of_neg _ (by simp [hr]), ih]

lemma find?_upsert_other (p : List StockData) (d d' : String) (doc : StockData)
    (hdoc : doc.date = d') (hne : d' ≠ d) :
    (upsertByDate p d' doc).find? (fun r => r.date = d) =
      p.find? (fun r => r.date = d) := by
  induction p with
  | nil => simp [upsertByDate, List.find?_cons_of_neg, hdoc, hne]
  | cons r rs ih =>
    by_cases hr : r.date = d'
    · rw [upsertByDate, if_pos hr]
      rw [List.find?_cons_of_neg _ (by simp [hdoc, hne]),
        List.find?_cons_of_neg _ (by simp [hr, hne])]
    · rw [upsertByDate, if_neg hr]
      by_cases hd : r.date = d
      · rw [List.find?_cons_of_pos _ (by simp [hd]), List.find?_cons_of_pos _ (by simp [hd])]
      · rw [List.find?_cons_of_neg _ (by simp [hd]), List.find?_cons_of_neg _ (by simp [hd]), ih]

lemma upsert_no_op (p : List StockData) (d : String) (doc : StockData)
    (hfind : p.find? (fun r => r.date = d) = some doc) :
    upsertByDate p d doc = p := by
  induction p with
  | nil => simp at hfind
  | cons r rs ih =>
    by_cases hr : r.date = d
    · rw [List.find?_cons_of_pos _ (by simp [hr])] at hfind
      rw [upsertByDate, if_pos hr, Option.some_inj.mp hfind]
    · rw [List.find?_cons_of_neg _ (by simp [hr])] at hfind
      rw [upsertByDate, if_neg hr, ih hfind]

lemma find?_applyPull_other (symbol d : String) (ts : List (String × DailyRaw))
    (hts : ∀ e ∈ ts, e.1 ≠ d) :
    ∀ p : List StockData,
      (applyPull p symbol ts).find? (fun r => r.date = d) =
        p.find? (fun r => r.date = d) := by
  induction ts with
  | nil => intro p; rfl
  | cons e rest ih =>
    intro p
    rw [applyPull_cons, ih (fun x hx => hts x (List.mem_cons_of_mem e hx)),
      find?_upsert_other _ d e.1 _ rfl (hts e (List.mem_cons_self e rest))]

lemma find?_applyPull_self (symbol : String) (ts : List (String × DailyRaw))
    (hts : (ts.map Prod.fst).Nodup) :
    ∀ p : List StockData, ∀ e ∈ ts,
      (applyPull p symbol ts).find? (fun r => r.date = e.1) =
        some (mkStockDoc symbol e.1 e.2) := by
  induction ts with
  | nil => intro p e he; simp at he
  | cons hd rest ih =>
    intro p e he
    rw [List.map_cons, List.nodup_cons] at hts
    rcases List.mem_cons.mp he with rfl | hmem
    · rw [applyPull_cons,
        find?_applyPull_other symbol e.1 rest
          (fun x hx hx1 => hts.1 (hx1 ▸ List.mem_map_of_mem Prod.fst hx)),
        find?_upsert_self p e.1 (mkStockDoc symbol e.1 e.2) rfl]
    · exact ih hts.2 _ e hmem

lemma applyPull_no_op (symbol : String) (ts : List (String × DailyRaw)) :
    ∀ q : List StockData,
      (∀ e ∈ ts, q.find? (fun r => r.date = e.1) = some (mkStockDoc symbol e.1 e.2)) →
      applyPull q symbol ts = q := by
  induction ts with
  | nil => intro q _; rfl
  | cons e rest ih =>
    intro q hq
    rw [applyPull_cons, upsert_no_op q e.1 _ (hq e (List.mem_cons_self e rest))]
    exact ih q (fun x hx => hq x (List.mem_cons_of_mem e hx))

lemma applyPull_idem (symbol : String) (part : List StockData)
    (ts : List (String × DailyRaw)) (hts : (ts.map Prod.fst).Nodup) :
    applyPull (applyPull part symbol ts) symbol ts = applyPull part symbol ts :=
  applyPull_no_op symbol ts _ (fun e he => find?_applyPull_self symbol ts hts part e he)

lemma nodup_date_applyPull (symbol : String) (ts : List (String × DailyRaw)) :
    ∀ p : List StockData, (p.map StockData.date).Nodup →
      ((applyPull p symbol ts).map StockData.date).Nodup := by
  induction ts with
  | nil => intro p hp; exact hp
  | cons e rest ih =>
    intro p hp
    rw [applyPull_cons]
    exact ih _ (nodup_date_upsert p e.1 _ rfl hp)

/-- **C4.** Upsert idempotence: with the upstream payload unchanged (a
time-series whose JSON date keys are necessarily distinct) and a partition
whose dates are distinct, running pullStock a second time returns the same
count and leaves the partition exactly as the first run left it (same
stored records), and after either run the partition contains no two
records with the same date. -/
theorem pullStock_idempotent (symbol k : String) (part : List StockData)
    (errF errMsgF : Option String) (ts : List (String × DailyRaw))
    (hF : jsTruthy errF = false) (hM : jsTruthy errMsgF = false)
    (hts : (ts.map Prod.fst).Nodup) (hpart : (part.map StockData.date).Nodup) :
    pullStock symbol part (.ok k) (.body errF errMsgF (some ts)) =
      (.ok ts.length, applyPull part symbol ts,
        ts.map (fun e => Ev.upsert e.1) ++ [Ev.wait]) ∧
    pullStock symbol (applyPull part symbol ts) (.ok k) (.body errF errMsgF (some ts)) =
      (.ok ts.length, applyPull part symbol ts,
        ts.map (fun e => Ev.upsert e.1) ++ [Ev.wait]) ∧
    ((applyPull part symbol ts).map StockData.date).Nodup := by
  refine ⟨by simp [pullStock, hF, hM], ?_, nodup_date_applyPull symbol ts part hpart⟩
  have h := applyPull_idem symbol part ts hts
  simp [pullStock, hF, hM, h]

/-- Witness for C4 at a two-entry payload over a one-record partition. -/
theorem pullStock_idempotent_witness :
    pullStock "IBM" [⟨"IBM", "2025-12-20", none, none, none, none, none⟩] (.ok "k")
      (.body none none (some [("2025-12-22", ⟨"1", "2", "3", "4", "5"⟩),
        ("2025-12-23", ⟨"6", "7", "8", "9", "10"⟩)])) =
      (.ok ([("2025-12-22", (⟨"1", "2", "3", "4", "5"⟩ : DailyRaw)),
          ("2025-12-23", ⟨"6", "7", "8", "9", "10"⟩)].length : ℕ),
        applyPull [⟨"IBM", "2025-12-20", none, none, none, none, none⟩] "IBM"
          [("2025-12-22", ⟨"1", "2", "3", "4", "5"⟩), ("2025-12-23", ⟨"6", "7", "8", "9", "10"⟩)],
        [("2025-12-22", (⟨"1", "2", "3", "4", "5"⟩ : DailyRaw)),
          ("2025-12-23", ⟨"6", "7", "8", "9", "10"⟩)].map (fun e => Ev.upsert e.1) ++
          [Ev.wait]) ∧
    pullStock "IBM"
      (applyPull [⟨"IBM", "2025-12-20", none, none, none, none, none⟩] "IBM"
        [("2025-12-22", ⟨"1", "2", "3", "4", "5"⟩), ("2025-12-23", ⟨"6", "7", "8", "9", "10"⟩)])
      (.ok "k")
      (.body none none (some [("2025-12-22", ⟨"1", "2", "3", "4", "5"⟩),
        ("2025-12-23", ⟨"6", "7", "8", "9", "10"⟩)])) =
      (.ok ([("2025-12-22", (⟨"1", "2", "3", "4", "5"⟩ : DailyRaw)),
          ("2025-12-23", ⟨"6", "7", "8", "9", "10"⟩)].length : ℕ),
        applyPull [⟨"IBM", "2025-12-20", none, none, none, none, none⟩] "IBM"
          [("2025-12-22", ⟨"1", "2", "3", "4", "5"⟩), ("2025-12-23", ⟨"6", "7", "8", "9", "10"⟩)],
        [("2025-12-22", (⟨"1", "2", "3", "4", "5"⟩ : DailyRaw)),
          ("2025-12-23", ⟨"6", "7", "8", "9", "10"⟩)].map (fun e => Ev.upsert e.1) ++
          [Ev.wait]) ∧
    ((applyPull [⟨"IBM", "2025-12-20", none, none, none, none, none⟩] "IBM"
      [("2025-12-22", ⟨"1", "2", "3", "4", "5"⟩),
        ("2025-12-23", ⟨"6", "7", "8", "9", "10"⟩)]).map StockData.date).Nodup :=
  pullStock_idempotent "IBM" "k" [⟨"IBM", "2025-12-20", none, none, none, none, none⟩]
    none none [("2025-12-22", ⟨"1", "2", "3", "4", "5"⟩), ("2025-12-23", ⟨"6", "7", "8", "9", "10"⟩)]
    rfl rfl (by decide) (by decide)

/- ===================== lemmas: cache-fill on miss ===================== -/

/-- **C1.** Cache-fill on miss for `get_stock_prices` without a date: on an
empty partition the tool invokes pullStock exactly once and re-runs the
identical latest-100 read (date-descending, limit 100) against the
partition the pull produced; a non-empty re-read yields the
freshly-pulled-tagged result carrying exactly the re-read records, an
empty re-read yields the non-error "even after pulling" outcome; and any
immediately following call for the same symbol against the now non-empty
partition performs zero pullStock invocations and returns the
cache-sourced records. -/
theorem getStockPrices_cacheFill (symbol : String) (keyRes : Except String String)
    (resp : ApiResponse (Option (List (String × DailyRaw))))
    (n : ℕ) (part2 : List StockData) (tr : List Ev)
    (hpull : pullStock symbol [] keyRes resp = (.ok n, part2, tr)) :
    (processLatest symbol [] keyRes resp).2.2.2 = 1 ∧
    (processLatest symbol [] keyRes resp).2.1 = part2 ∧
    (readLatest part2 = [] →
      (processLatest symbol [] keyRes resp).1 =
        ⟨"No stock data found for " ++ symbol ++ " (even after pulling from API)",
          .docs [], none⟩) ∧
    (readLatest part2 ≠ [] →
      (processLatest symbol [] keyRes resp).1 =
        ⟨"Found " ++ toString (readLatest part2).length ++ " stock price records for " ++
          symbol ++ " (freshly pulled from API)", .docs (readLatest part2), none⟩) ∧
    (readLatest part2 ≠ [] → ∀ keyRes' resp',
      processLatest symbol part2 keyRes' resp' =
        (⟨"Found " ++ toString (readLatest part2).length ++ " stock price records for " ++
          symbol, .docs (readLatest part2), none⟩, part2, 1, 0)) := by
  have h0 : readLatest ([] : List StockData) = [] := rfl
  cases hrl : readLatest part2 with
  | nil =>
    refine ⟨?_, ?_, fun _ => ?_, fun hne => absurd rfl hne, fun hne => absurd rfl hne⟩ <;>
      simp only [processLatest, h0, hpull, hrl]
  | cons d ds =>
    refine ⟨?_, ?_, fun hemp => (List.cons_ne_nil d ds hemp).elim,
      fun _ => ?_, fun _ keyRes' resp' => ?_⟩
    · simp only [processLatest, h0, hpull, hrl]
    · simp only [processLatest, h0, hpull, hrl]
    · simp only [processLatest, h0, hpull, hrl]
    · simp only [processLatest, hrl]

/-- Witness for C1: symbol "XYZ", empty partition, a one-entry payload. -/
theorem getStockPrices_cacheFill_witness :
    (processLatest "XYZ" [] (.ok "k")
      (.body none none (some [("2025-12-23", ⟨"1", "2", "3", "4", "5"⟩)]))).2.2.2 = 1 ∧
    (processLatest "XYZ" [] (.ok "k")
      (.body none none (some [("2025-12-23", ⟨"1", "2", "3", "4", "5"⟩)]))).2.1 =
      [⟨"XYZ", "2025-12-23", some 1, some 2, some 3, some 4, some 5⟩] ∧
    (readLatest [⟨"XYZ", "2025-12-23", some 1, some 2, some 3, some 4, some 5⟩] = [] →
      (processLatest "XYZ" [] (.ok "k")
        (.body none none (some [("2025-12-23", ⟨"1", "2", "3", "4", "5"⟩)]))).1 =
        ⟨"No stock data found for " ++ "XYZ" ++ " (even after pulling from API)",
          .docs [], none⟩) ∧
    (readLatest [⟨"XYZ", "2025-12-23", some 1, some 2, some 3, some 4, some 5⟩] ≠ [] →
      (processLatest "XYZ" [] (.ok "k")
        (.body none none (some [("2025-12-23", ⟨"1", "2", "3", "4", "5"⟩)]))).1 =
        ⟨"Found " ++ toString (readLatest
            [⟨"XYZ", "2025-12-23", some 1, some 2, some 3, some 4, some 5⟩]).length ++
          " stock price records for " ++ "XYZ" ++ " (freshly pulled from API)",
          .docs (readLatest
            [⟨"XYZ", "2025-12-23", some 1, some 2, some 3, some 4, some 5⟩]), none⟩) ∧
    (readLatest [⟨"XYZ", "2025-12-23", some 1, some 2, some 3, some 4, some 5⟩] ≠ [] →
      ∀ keyRes' resp',
      processLatest "XYZ" [⟨"XYZ", "2025-12-23", some 1, some 2, some 3, some 4, some 5⟩]
          keyRes' resp' =
        (⟨"Found " ++ toString (readLatest
            [⟨"XYZ", "2025-12-23", some 1, some 2, some 3, some 4, some 5⟩]).length ++
          " stock price records for " ++ "XYZ",
          .docs (readLatest
            [⟨"XYZ", "2025-12-23", some 1, some 2, some 3, some 4, some 5⟩]), none⟩,
          [⟨"XYZ", "2025-12-23", some 1, some 2, some 3, some 4, some 5⟩], 1, 0)) := by
  have hpull : pullStock "XYZ" [] (.ok "k")
      (.body none none (some [("2025-12-23", ⟨"1", "2", "3", "4", "5"⟩)])) =
      (.ok 1, [⟨"XYZ", "2025-12-23", some 1, some 2, some 3, some 4, some 5⟩],
        [Ev.upsert "2025-12-23", Ev.wait]) := by
    simp [pullStock, applyPull, upsertByDate, mkStockDoc, jsParseFloat, jsParseInt,
      takeDigits, digitsToNat, digitVal, jsTruthy]
  exact getStockPrices_cacheFill "XYZ" (.ok "k")
    (.body none none (some [("2025-12-23", ⟨"1", "2", "3", "4", "5"⟩)]))
    1 [⟨"XYZ", "2025-12-23", some 1, some 2, some 3, some 4, some 5⟩]
    [Ev.upsert "2025-12-23", Ev.wait] hpull

/-- **C5 counterexample.** On the no-date (latest-100) path a fetch failure
produces a result whose `data` field is the empty array, not JSON null —
the claim's "data: null for every fetcher error" fails there (the `error`
field shows this is indeed the fetch-failure result). -/
theorem getStockPrices_fetchError_data_not_null :
    (processLatest "IBM" [] (.error ".keylist file not found") (.netError "x")).1.data =
      DataField.docs [] ∧
    (processLatest "IBM" [] (.error ".keylist file not found") (.netError "x")).1.error =
      some "Missing .keylist file" ∧
    (processLatest "IBM" [] (.error ".keylist file not found") (.netError "x")).1.data ≠
      DataField.null := by
  refine ⟨rfl, rfl, ?_⟩
  intro h
  exact DataField.noConfusion ((rfl :
    (processLatest "IBM" [] (.error ".keylist file not found") (.netError "x")).1.data =
      DataField.docs []) ▸ h)

/-- **C5 amended.** Every fetcher error on the cache-fill path is converted
into a normal (non-thrown) structured tool result — `data` is null on the
date path and the empty array on the latest-100 path — whose `error` field
distinguishes the missing-`.keylist` configuration error (classified by
the `.keylist`/`ENOENT` message test, surfaced as "Missing .keylist file"
with remediation text) from every other fetch failure (surfaced with the
raw error message). -/
theorem getStockPrices_fetchError_structured (symbol date : String)
    (part : List StockData) (keyRes : Except String String)
    (resp : ApiResponse (Option (List (String × DailyRaw))))
    (e : String) (part2 : List StockData) (tr : List Ev)
    (hpull : pullStock symbol part keyRes resp = (.error e, part2, tr)) :
    (∀ dateF, formatStockDate date = .ok dateF →
      part.filter (fun r => r.date = dateF) = [] →
      processByDate symbol date part keyRes resp =
        .ok ((if isKeylistError e then
            ⟨keylistMsg symbol, .null, some "Missing .keylist file"⟩
          else ⟨"No stock data found for " ++ symbol ++ ". Auto-pull failed: " ++ e,
            .null, some e⟩), part2, 1, 1)) ∧
    (readLatest part = [] →
      processLatest symbol part keyRes resp =
        ((if isKeylistError e then
            ⟨keylistMsg symbol, .docs [], some "Missing .keylist file"⟩
          else ⟨"No stock data found for " ++ symbol ++ ". Auto-pull failed: " ++ e,
            .docs [], some e⟩), part2, 1, 1)) := by
  constructor
  · intro dateF hfmt hmiss
    by_cases hk : isKeylistError e = true
    · simp [processByDate, hfmt, hmiss, hpull, hk]
    · simp [processByDate, hfmt, hmiss, hpull, hk]
  · intro hmiss
    by_cases hk : isKeylistError e = true
    · simp [processLatest, hmiss, hpull, hk]
    · simp [processLatest, hmiss, hpull, hk]

/-- Witness for the amended C5 at a missing-`.keylist` failure over an
empty IBM partition, on both query paths. -/
theorem getStockPrices_fetchError_structured_witness :
    processByDate "IBM" "20251223" [] (.error ".keylist file not found") (.netError "x") =
      .ok ((if isKeylistError ".keylist file not found" then
          ⟨keylistMsg "IBM", .null, some "Missing .keylist file"⟩
        else ⟨"No stock data found for " ++ "IBM" ++ ". Auto-pull failed: " ++
          ".keylist file not found", .null, some ".keylist file not found"⟩), [], 1, 1) ∧
    processLatest "IBM" [] (.error ".keylist file not found") (.netError "x") =
      ((if isKeylistError ".keylist file not found" then
          ⟨keylistMsg "IBM", .docs [], some "Missing .keylist file"⟩
        else ⟨"No stock data found for " ++ "IBM" ++ ". Auto-pull failed: " ++
          ".keylist file not found", .docs [], some ".keylist file not found"⟩), [], 1, 1) :=
  ⟨(getStockPrices_fetchError_structured "IBM" "20251223" [] (.error ".keylist file not found")
      (.netError "x") ".keylist file not found" [] [] rfl).1 "2025-12-23" rfl rfl,
    (getStockPrices_fetchError_structured "IBM" "20251223" [] (.error ".keylist file not found")
      (.netError "x") ".keylist file not found" [] [] rfl).2 rfl⟩

/- ===================== lemmas: get_news ===================== -/

lemma hasSeg_nil (l : List Char) : hasSeg [] l = true := by
  cases l with
  | nil => rfl
  | cons c cs => rfl

lemma containsCI_empty (hay : String) : containsCI hay "" = true := by
  simpa [containsCI] using hasSeg_nil (hay.toList.map Char.toLower)

/-- The get_news filter with a present keyword is the range test conjoined
with the case-insensitive title-or-summary match — also for the JS-falsy
empty keyword, which the code short-circuits but which matches everything. -/
lemma newsFilter_some (ft tt k : String) (it : NewsItem) :
    newsFilter ft tt (some k) it =
      (newsInRange ft tt it &&
        (containsCI it.title k || containsCI it.summary k)) := by
  by_cases hk : k = ""
  · subst hk
    simp [newsFilter, jsTruthy, containsCI_empty]
  · have : k.isEmpty = false := by
      rw [← Bool.not_eq_true, String.isEmpty_iff]
      exact hk
    simp [newsFilter, jsTruthy, this]

/-- **C7.** get_news query semantics: with a keyword the result is exactly
the stored articles in the publication-timestamp range whose title or
summary case-insensitively matches the keyword (an OR over the two
fields); without a keyword it is the full date-range result set; the empty
result is a normal non-error outcome; and no call performs any fetcher
invocation (the invocation count is 0 on every outcome). -/
theorem getNews_filterSemantics (store : List NewsItem) (frm toD : String)
    (hf : validDate8 frm = true) (ht : validDate8 toD = true) :
    (∀ k : String, ∃ res : NewsResult,
      processGetNews store frm toD (some k) = .ok (res, 0) ∧
      res.count = res.data.length ∧
      res.data = store.filter (fun it =>
        newsInRange (frm ++ "T0000") (toD ++ "T2359") it &&
        (containsCI it.title k || containsCI it.summary k)) ∧
      ∀ it, it ∈ res.data ↔ it ∈ store ∧
        newsInRange (frm ++ "T0000") (toD ++ "T2359") it = true ∧
        (containsCI it.title k || containsCI it.summary k) = true) ∧
    (∃ res : NewsResult,
      processGetNews store frm toD none = .ok (res, 0) ∧
      res.count = res.data.length ∧
      res.data = store.filter (newsInRange (frm ++ "T0000") (toD ++ "T2359"))) ∧
    (store.filter (newsFilter (frm ++ "T0000") (toD ++ "T2359") none) = [] →
      processGetNews store frm toD none =
        .ok (⟨"No news articles found between " ++ frm ++ " and " ++ toD, 0, []⟩, 0)) := by
  have hfmt1 : formatNewsTime frm false = .ok (frm ++ "T0000") := by
    rw [formatNewsTime, if_pos hf]
    rfl
  have hfmt2 : formatNewsTime toD true = .ok (toD ++ "T2359") := by
    rw [formatNewsTime, if_pos ht]
    rfl
  refine ⟨?_, ?_, ?_⟩
  · intro k
    have hfe : store.filter (newsFilter (frm ++ "T0000") (toD ++ "T2359") (some k)) =
        store.filter (fun it =>
          newsInRange (frm ++ "T0000") (toD ++ "T2359") it &&
          (containsCI it.title k || containsCI it.summary k)) :=
      List.filter_congr (fun it _ => newsFilter_some _ _ k it)
    by_cases hd : (store.filter (newsFilter (frm ++ "T0000") (toD ++ "T2359") (some k))).length = 0
    · refine ⟨⟨"No news articles found between " ++ frm ++ " and " ++ toD ++
        (if jsTruthy (some k) = true then " matching keyword \"" ++ k ++ "\"" else ""), 0, []⟩,
        ?_, rfl, ?_, ?_⟩
      · simp [processGetNews, hfmt1, hfmt2, hd]
      · rw [← hfe, List.length_eq_zero.mp hd]
      · intro it
        simp only [List.not_mem_nil, false_iff]
        intro ⟨hmem, hrange, hmatch⟩
        have : it ∈ store.filter (newsFilter (frm ++ "T0000") (toD ++ "T2359") (some k)) := by
          rw [hfe]
          exact List.mem_filter.mpr ⟨hmem, by rw [hrange, hmatch]; rfl⟩
        rw [List.length_eq_zero.mp hd] at this
        exact List.not_mem_nil it this
    · refine ⟨⟨"Found " ++
        toString (store.filter (newsFilter (frm ++ "T0000") (toD ++ "T2359") (some k))).length ++
        " news articles between " ++ frm ++ " and " ++ toD ++
        (if jsTruthy (some k) = true then " matching keyword \"" ++ k ++ "\"" else ""),
        (store.filter (newsFilter (frm ++ "T0000") (toD ++ "T2359") (some k))).length,
        store.filter (newsFilter (frm ++ "T0000") (toD ++ "T2359") (some k))⟩,
        ?_, rfl, hfe, ?_⟩
      · simp [processGetNews, hfmt1, hfmt2, hd]
      · intro it
        rw [hfe]
        simp only [List.mem_filter, Bool.and_eq_true, Bool.or_eq_true, and_assoc]
  · by_cases hd : (store.filter (newsFilter (frm ++ "T0000") (toD ++ "T2359") none)).length = 0
    · refine ⟨⟨"No news articles found between " ++ frm ++ " and " ++ toD, 0, []⟩, ?_, rfl, ?_⟩
      · simp [processGetNews, hfmt1, hfmt2, hd, jsTruthy]
      · rw [show store.filter (newsInRange (frm ++ "T0000") (toD ++ "T2359")) =
          store.filter (newsFilter (frm ++ "T0000") (toD ++ "T2359") none) from
          List.filter_congr (fun it _ => by simp [newsFilter, jsTruthy]),
          List.length_eq_zero.mp hd]
    · refine ⟨⟨"Found " ++
        toString (store.filter (newsFilter (frm ++ "T0000") (toD ++ "T2359") none)).length ++
        " news articles between " ++ frm ++ " and " ++ toD,
        (store.filter (newsFilter (frm ++ "T0000") (toD ++ "T2359") none)).length,
        store.filter (newsFilter (frm ++ "T0000") (toD ++ "T2359") none)⟩, ?_, rfl, ?_⟩
      · simp [processGetNews, hfmt1, hfmt2, hd, jsTruthy]
      · exact (List.filter_congr (fun it _ => by simp [newsFilter, jsTruthy])).symm
  · intro hnil
    have hd : (store.filter (newsFilter (frm ++ "T0000") (toD ++ "T2359") none)).length = 0 := by
      rw [hnil]
      rfl
    simp [processGetNews, hfmt1, hfmt2, hd, jsTruthy]

/-- Witness for C7 on a two-article store over `20251221`–`20251222`. -/
theorem getNews_filterSemantics_witness :
    (∀ k : String, ∃ res : NewsResult,
      processGetNews
        [⟨"Big Trading Day", "u1", "20251221T120000", [], "markets rallied", none,
          "s", "c", "d", [], none, "Neutral", []⟩,
         ⟨"Quiet Session", "u2", "20251221T130000", [], "nothing happened", none,
          "s", "c", "d", [], none, "Neutral", []⟩] "20251221" "20251222" (some k) =
        .ok (res, 0) ∧
      res.count = res.data.length ∧
      res.data = [⟨"Big Trading Day", "u1", "20251221T120000", [], "markets rallied", none,
          "s", "c", "d", [], none, "Neutral", []⟩,
         ⟨"Quiet Session", "u2", "20251221T130000", [], "nothing happened", none,
          "s", "c", "d", [], none, "Neutral", []⟩].filter (fun it =>
        newsInRange ("20251221" ++ "T0000") ("20251222" ++ "T2359") it &&
        (containsCI it.title k || containsCI it.summary k)) ∧
      ∀ it, it ∈ res.data ↔
        it ∈ [⟨"Big Trading Day", "u1", "20251221T120000", [], "markets rallied", none,
          "s", "c", "d", [], none, "Neutral", []⟩,
         ⟨"Quiet Session", "u2", "20251221T130000", [], "nothing happened", none,
          "s", "c", "d", [], none, "Neutral", []⟩] ∧
        newsInRange ("20251221" ++ "T0000") ("20251222" ++ "T2359") it = true ∧
        (containsCI it.title k || containsCI it.summary k) = true) ∧
    (∃ res : NewsResult,
      processGetNews
        [⟨"Big Trading Day", "u1", "20251221T120000", [], "markets rallied", none,
          "s", "c", "d", [], none, "Neutral", []⟩,
         ⟨"Quiet Session", "u2", "20251221T130000", [], "nothing happened", none,
          "s", "c", "d", [], none, "Neutral", []⟩] "20251221" "20251222" none =
        .ok (res, 0) ∧
      res.count = res.data.length ∧
      res.data = [⟨"Big Trading Day", "u1", "20251221T120000", [], "markets rallied", none,
          "s", "c", "d", [], none, "Neutral", []⟩,
         ⟨"Quiet Session", "u2", "20251221T130000", [], "nothing happened", none,
          "s", "c", "d", [], none, "Neutral", []⟩].filter
        (newsInRange ("20251221" ++ "T0000") ("20251222" ++ "T2359"))) ∧
    ([⟨"Big Trading Day", "u1", "20251221T120000", [], "markets rallied", none,
          "s", "c", "d", [], none, "Neutral", []⟩,
      ⟨"Quiet Session", "u2", "20251221T130000", [], "nothing happened", none,
          "s", "c", "d", [], none, "Neutral", []⟩].filter
        (newsFilter ("20251221" ++ "T0000") ("20251222" ++ "T2359") none) = [] →
      processGetNews
        [⟨"Big Trading Day", "u1", "20251221T120000", [], "markets rallied", none,
          "s", "c", "d", [], none, "Neutral", []⟩,
         ⟨"Quiet Session", "u2", "20251221T130000", [], "nothing happened", none,
          "s", "c", "d", [], none, "Neutral", []⟩] "20251221" "20251222" none =
        .ok (⟨"No news articles found between " ++ "20251221" ++ " and " ++ "20251222",
          0, []⟩, 0)) :=
  getNews_filterSemantics
    [⟨"Big Trading Day", "u1", "20251221T120000", [], "markets rallied", none,
      "s", "c", "d", [], none, "Neutral", []⟩,
     ⟨"Quiet Session", "u2", "20251221T130000", [], "nothing happened", none,
      "s", "c", "d", [], none, "Neutral", []⟩] "20251221" "20251222" (by decide) (by decide)

/- ===================== lemmas: timestamp string order ===================== -/

lemma toList_append (s t : String) : (s ++ t).toList = s.toList ++ t.toList :=
  String.data_append s t

lemma lexLt_irrefl_append (r : List Char) : ∀ l : List Char, lexLt (l ++ r) l = false := by
  intro l
  induction l with
  | nil => cases r with | nil => rfl | cons c cs => rfl
  | cons a as ih =>
    show (if a < a then true else if a < a then false else lexLt (as ++ r) as) = false
    rw [if_neg (lt_irrefl a), if_neg (lt_irrefl a), ih]

lemma lexLt_self_append (c : Char) (cs : List Char) :
    ∀ l : List Char, lexLt l (l ++ c :: cs) = true := by
  intro l
  induction l with
  | nil => rfl
  | cons a as ih =>
    show (if a < a then true else if a < a then false else lexLt as (as ++ c :: cs)) = true
    rw [if_neg (lt_irrefl a), if_neg (lt_irrefl a), ih]

lemma lexLt_append_left (x y : List Char) :
    ∀ l : List Char, lexLt (l ++ x) (l ++ y) = lexLt x y := by
  intro l
  induction l with
  | nil => rfl
  | cons a as ih =>
    show (if a < a then true else if a < a then false else lexLt (as ++ x) (as ++ y)) = lexLt x y
    rw [if_neg (lt_irrefl a), if_neg (lt_irrefl a), ih]

lemma lexLt_total_of_not (a : List Char) :
    ∀ b : List Char, a.length = b.length → lexLt b a = false →
      lexLt a b = true ∨ a = b := by
  induction a with
  | nil =>
    intro b hlen _
    cases b with
    | nil => exact Or.inr rfl
    | cons y ys => simp at hlen
  | cons x xs ih =>
    intro b hlen h
    cases b with
    | nil => simp at hlen
    | cons y ys =>
      have hlen' : xs.length = ys.length := by simpa using hlen
      by_cases hyx : y < x
      · exfalso
        have : lexLt (y :: ys) (x :: xs) = true := by
          show (if y < x then true else if x < y then false else lexLt ys xs) = true
          rw [if_pos hyx]
        rw [this] at h
        exact absurd h (by decide)
      · by_cases hxy : x < y
        · left
          show (if x < y then true else if y < x then false else lexLt xs ys) = true
          rw [if_pos hxy]
        · have hxyeq : x = y := le_antisymm (not_lt.mp hyx) (not_lt.mp hxy)
          have h' : lexLt ys xs = false := by
            have e : lexLt (y :: ys) (x :: xs) = lexLt ys xs := by
              show (if y < x then true else if x < y then false else lexLt ys xs) = lexLt ys xs
              rw [if_neg hyx, if_neg hxy]
            rw [e] at h
            exact h
          rcases ih ys hlen' h' with hlt | heq
          · left
            show (if x < y then true else if y < x then false else lexLt xs ys) = true
            rw [if_neg hxy, if_neg hyx, hlt]
          · right
            rw [hxyeq, heq]

lemma lexLt_append_of_lt (a : List Char) :
    ∀ b : List Char, a.length = b.length → lexLt a b = true →
      ∀ x y, lexLt (b ++ y) (a ++ x) = false := by
  induction a with
  | nil =>
    intro b hlen h
    cases b with
    | nil => exact absurd h (by simp [lexLt])
    | cons y ys => simp at hlen
  | cons p ps ih =>
    intro b hlen h
    cases b with
    | nil => simp at hlen
    | cons q qs =>
      intro x y
      have hlen' : ps.length = qs.length := by simpa using hlen
      by_cases hpq : p < q
      · show (if q < p then true else if p < q then false else lexLt (qs ++ y) (ps ++ x)) = false
        rw [if_neg (lt_asymm hpq), if_pos hpq]
      · by_cases hqp : q < p
        · exfalso
          have e : lexLt (p :: ps) (q :: qs) = false := by
            show (if p < q then true else if q < p then false else lexLt ps qs) = false
            rw [if_neg hpq, if_pos hqp]
          rw [e] at h
          exact Bool.false_ne_true h
        · have h' : lexLt ps qs = true := by
            have e : lexLt (p :: ps) (q :: qs) = lexLt ps qs := by
              show (if p < q then true else if q < p then false else lexLt ps qs) = lexLt ps qs
              rw [if_neg hpq, if_neg hqp]
            rw [e] at h
            exact h
          show (if q < p then true else if p < q then false else lexLt (qs ++ y) (ps ++ x)) = false
          rw [if_neg hqp, if_neg hpq, ih qs hlen' h' x y]

lemma formatNewsTime_start {s : String} (h : validDate8 s = true) :
    formatNewsTime s false = .ok (s ++ "T0000") := by
  rw [formatNewsTime, if_pos h]
  rfl

lemma formatNewsTime_end {s : String} (h : validDate8 s = true) :
    formatNewsTime s true = .ok (s ++ "T2359") := by
  rw [formatNewsTime, if_pos h]
  rfl

/-- Membership in the data of a get_news result is membership in the
filtered store. -/
lemma processGetNews_data (store : List NewsItem) (frm toD : String) (kw : Option String)
    (hf : validDate8 frm = true) (ht : validDate8 toD = true) :
    ∀ res m, processGetNews store frm toD kw = .ok (res, m) →
      ∀ x : NewsItem,
        (x ∈ res.data ↔ x ∈ store.filter (newsFilter (frm ++ "T0000") (toD ++ "T2359") kw)) := by
  intro res m heq x
  by_cases hd : (store.filter (newsFilter (frm ++ "T0000") (toD ++ "T2359") kw)).length = 0
  · simp [processGetNews, formatNewsTime_start hf, formatNewsTime_end ht, hd] at heq
    rw [← heq.1]
    simp [List.length_eq_zero.mp hd]
  · simp [processGetNews, formatNewsTime_start hf, formatNewsTime_end ht, hd] at heq
    rw [← heq.1]

/-- **C10.** End-minute boundary of the get_news range: the upper bound
`${to}T2359` is a strict prefix of — hence lexicographically below — every
full `YYYYMMDDTHHMMSS` timestamp in the final minute of the end date, so
the `$lte` comparison rejects such articles and no get_news result
contains them (under any keyword), while an article in the start minute of
the from date satisfies both bounds and is returned. -/
theorem getNews_endMinute_boundary (frm toD SS SS2 : String) (store : List NewsItem)
    (it it2 : NewsItem)
    (hf : validDate8 frm = true) (ht : validDate8 toD = true)
    (hle : strLe frm toD = true) (hSS : SS ≠ "")
    (hit : it.time_published = toD ++ "T2359" ++ SS)
    (hit2 : it2.time_published = frm ++ "T0000" ++ SS2) :
    strLe it.time_published (toD ++ "T2359") = false ∧
    (∀ kw, newsFilter (frm ++ "T0000") (toD ++ "T2359") kw it = false) ∧
    (∀ kw res m, processGetNews store frm toD kw = .ok (res, m) → it ∉ res.data) ∧
    newsInRange (frm ++ "T0000") (toD ++ "T2359") it2 = true ∧
    (it2 ∈ store → ∀ res m, processGetNews store frm toD none = .ok (res, m) →
      it2 ∈ res.data) := by
  obtain ⟨hlenf, _⟩ := validDate8_elim hf
  obtain ⟨hlent, _⟩ := validDate8_elim ht
  have hSSl : ∃ c cs, SS.toList = c :: cs := by
    cases hcl : SS.toList with
    | nil => exact absurd (String.ext hcl) hSS
    | cons c cs => exact ⟨c, cs, rfl⟩
  have hupper : strLe (toD ++ "T2359" ++ SS) (toD ++ "T2359") = false := by
    obtain ⟨c, cs, hcl⟩ := hSSl
    rw [strLe, toList_append (toD ++ "T2359") SS, hcl, lexLt_self_append]
    rfl
  have hfilter : ∀ kw, newsFilter (frm ++ "T0000") (toD ++ "T2359") kw it = false := by
    intro kw
    rw [newsFilter, newsInRange, hit, hupper]
    simp
  have hlow : strLe (frm ++ "T0000") (frm ++ "T0000" ++ SS2) = true := by
    rw [strLe, toList_append, lexLt_irrefl_append]
    rfl
  have hnotlt : lexLt toD.toList frm.toList = false := by simpa [strLe] using hle
  have hup2 : strLe (frm ++ "T0000" ++ SS2) (toD ++ "T2359") = true := by
    rw [strLe, toList_append, toList_append, toList_append, List.append_assoc]
    rcases lexLt_total_of_not frm.toList toD.toList (by rw [hlenf, hlent]) hnotlt with
      hlt | heqL
    · rw [lexLt_append_of_lt frm.toList toD.toList (by rw [hlenf, hlent]) hlt]
      rfl
    · rw [← heqL, lexLt_append_left]
      have hcmp : lexLt "T2359".toList ("T0000".toList ++ SS2.toList) = false := by
        show (if 'T' < 'T' then true else if 'T' < 'T' then false else
          lexLt ['2', '3', '5', '9'] ('0' :: '0' :: '0' :: '0' :: SS2.toList)) = false
        rw [if_neg (lt_irrefl _), if_neg (lt_irrefl _)]
        show (if '2' < '0' then true else if '0' < '2' then false else
          lexLt ['3', '5', '9'] ('0' :: '0' :: '0' :: SS2.toList)) = false
        rw [if_neg (by decide), if_pos (by decide)]
      rw [hcmp]
      rfl
  refine ⟨by rw [hit]; exact hupper, hfilter, ?_, ?_, ?_⟩
  · intro kw res m heq hmem
    have hiff := processGetNews_data store frm toD kw hf ht res m heq it
    have hcond := (List.mem_filter.mp (hiff.mp hmem)).2
    rw [hfilter kw] at hcond
    exact Bool.false_ne_true hcond
  · rw [newsInRange, hit2, hlow, hup2]
    rfl
  · intro hmem res m heq
    apply (processGetNews_data store frm toD none hf ht res m heq it2).mpr
    apply List.mem_filter.mpr
    refine ⟨hmem, ?_⟩
    rw [newsFilter, newsInRange, hit2, hlow, hup2]
    simp [jsTruthy]

/-- Witness for C10: a final-minute article of `20251222` is excluded, a
start-minute article of `20251221` is included. -/
theorem getNews_endMinute_boundary_witness :
    strLe (⟨"End Minute", "u1", "20251222" ++ "T2359" ++ "00", [], "s", none, "s", "c",
        "d", [], none, "N", []⟩ : NewsItem).time_published ("20251222" ++ "T2359") = false ∧
    (∀ kw, newsFilter ("20251221" ++ "T0000") ("20251222" ++ "T2359") kw
      ⟨"End Minute", "u1", "20251222" ++ "T2359" ++ "00", [], "s", none, "s", "c",
        "d", [], none, "N", []⟩ = false) ∧
    (∀ kw res m, processGetNews
        [⟨"End Minute", "u1", "20251222" ++ "T2359" ++ "00", [], "s", none, "s", "c",
          "d", [], none, "N", []⟩,
         ⟨"Start Minute", "u2", "20251221" ++ "T0000" ++ "30", [], "s", none, "s", "c",
          "d", [], none, "N", []⟩] "20251221" "20251222" kw = .ok (res, m) →
      (⟨"End Minute", "u1", "20251222" ++ "T2359" ++ "00", [], "s", none, "s", "c",
        "d", [], none, "N", []⟩ : NewsItem) ∉ res.data) ∧
    newsInRange ("20251221" ++ "T0000") ("20251222" ++ "T2359")
      ⟨"Start Minute", "u2", "20251221" ++ "T0000" ++ "30", [], "s", none, "s", "c",
        "d", [], none, "N", []⟩ = true ∧
    ((⟨"Start Minute", "u2", "20251221" ++ "T0000" ++ "30", [], "s", none, "s", "c",
        "d", [], none, "N", []⟩ : NewsItem) ∈
      [⟨"End Minute", "u1", "20251222" ++ "T2359" ++ "00", [], "s", none, "s", "c",
          "d", [], none, "N", []⟩,
       ⟨"Start Minute", "u2", "20251221" ++ "T0000" ++ "30", [], "s", none, "s", "c",
          "d", [], none, "N", []⟩] →
      ∀ res m, processGetNews
        [⟨"End Minute", "u1", "20251222" ++ "T2359" ++ "00", [], "s", none, "s", "c",
          "d", [], none, "N", []⟩,
         ⟨"Start Minute", "u2", "20251221" ++ "T0000" ++ "30", [], "s", none, "s", "c",
          "d", [], none, "N", []⟩] "20251221" "20251222" none = .ok (res, m) →
      (⟨"Start Minute", "u2", "20251221" ++ "T0000" ++ "30", [], "s", none, "s", "c",
        "d", [], none, "N", []⟩ : NewsItem) ∈ res.data) :=
  getNews_endMinute_boundary "20251221" "20251222" "00" "30"
    [⟨"End Minute", "u1", "20251222" ++ "T2359" ++ "00", [], "s", none, "s", "c",
      "d", [], none, "N", []⟩,
     ⟨"Start Minute", "u2", "20251221" ++ "T0000" ++ "30", [], "s", none, "s", "c",
      "d", [], none, "N", []⟩]
    ⟨"End Minute", "u1", "20251222" ++ "T2359" ++ "00", [], "s", none, "s", "c",
      "d", [], none, "N", []⟩
    ⟨"Start Minute", "u2", "20251221" ++ "T0000" ++ "30", [], "s", none, "s", "c",
      "d", [], none, "N", []⟩
    (by decide) (by decide) (by decide) (by decide) rfl rfl

end AlphaVantage
